import Mathlib

/-!
Verification of the file-installation logic of the solana-claude-md
installer.  The repository ships two command-line entry points:

* `bin/cli.js` (here the `cli` definitions): flag-driven, never prompts,
  defaults to installing every catalog entry when no per-file flag is given,
  and skips existing destination files unless `--force` is present.
* an interactive installer (here the `inter` definitions): recognises
  `--all`, resolves per-file flags through an else-if chain, prompts for a
  selection when no flag selects anything, and asks for confirmation before
  overwriting existing files.

Filesystem state is modelled as an association list from file names to file
contents; the bundled source files and the writability of destination paths
live in an `Env` record, so read and write failures are expressible.
-/

/-- Key identifies one catalog entry, as in the FILES object of both scripts. -/
inductive Key where
  | claude
  | backend
  | frontend
deriving DecidableEq, Repr, Fintype

/-- FileEntry mirrors one record of the FILES catalog: the destination file
name and the human-readable description.  The source path is modelled through
Env.srcRead, keyed by the catalog key. -/
structure FileEntry where
  name : String
  description : String
deriving DecidableEq, Repr

/-- FILES is the fixed catalog shared verbatim by both entry points. -/
def FILES : Key → FileEntry
  | .claude => { name := "CLAUDE.md",
                 description := "Basic rules & constraints for any AI assistant" }
  | .backend => { name := "SOLANA_EXPERT_AGENT.md",
                  description := "Backend expert (programs, DeFi, security, infrastructure)" }
  | .frontend => { name := "SOLANA_FRONTEND_AGENT.md",
                   description := "Frontend expert (UI/UX, design systems, accessibility)" }

/-- catalogKeys lists every catalog key in display order. -/
def catalogKeys : List Key := [Key.claude, Key.backend, Key.frontend]

/-- Fs models the destination directory: an association list from file names
to file contents (file content is the string Node obtains from a utf-8 read). -/
abbrev Fs := List (String × String)

/-- lookupFile returns the content stored under a file name, if any. -/
def lookupFile : Fs → String → Option String
  | [], _ => none
  | (n, c) :: rest, name => if n = name then some c else lookupFile rest name

/-- existsSync mirrors fs.existsSync on the destination directory. -/
def existsSync (fs : Fs) (name : String) : Bool :=
  (lookupFile fs name).isSome

/-- writeFileSync stores content under a name, replacing an existing binding. -/
def writeFileSync : Fs → String → String → Fs
  | [], name, content => [(name, content)]
  | (n, c) :: rest, name, content =>
      if n = name then (n, content) :: rest
      else (n, c) :: writeFileSync rest name content

/-- Env carries the fallible filesystem primitives: reading a bundled source
file (readFileSync on the catalog path) and whether a destination file name is
writable (writeFileSync succeeds there). -/
structure Env where
  srcRead : Key → Except String String
  writable : String → Bool

/-- Outcome is the per-entry result the copy loops report: an installed file
(with the action string the cli script computes), a skip, or a caught error. -/
inductive Outcome where
  | ok (action : String)
  | skipped
  | failed (msg : String)
deriving DecidableEq, Repr

/-- CopySt is the state threaded through a copy loop: the destination
directory, the installed and skipped counters, and the outcome log. -/
structure CopySt where
  fs : Fs
  installed : Nat
  skipped : Nat
  outcomes : List (Key × Outcome)
deriving DecidableEq, Repr

/-- isSpaceChar models the whitespace characters stripped by the JavaScript
trim method, restricted to the ASCII whitespace relevant to console input. -/
def isSpaceChar (c : Char) : Bool :=
  c == ' ' || c == '\t' || c == '\n' || c == '\r'

/-- jsTrim models answer.trim(): strip leading and trailing whitespace. -/
def jsTrim (s : String) : String :=
  String.mk (((s.data.dropWhile isSpaceChar).reverse.dropWhile isSpaceChar).reverse)

/-- lowerChar lowers one ASCII letter, as toLowerCase does on ASCII input. -/
def lowerChar (c : Char) : Char :=
  if 65 ≤ c.toNat && c.toNat ≤ 90 then Char.ofNat (c.toNat + 32) else c

/-- jsToLower models answer.toLowerCase() on ASCII input. -/
def jsToLower (s : String) : String :=
  String.mk (s.data.map lowerChar)

/-- splitCommaAux splits a character list at every comma; the result is never
empty and keeps empty segments, as the JavaScript split method does. -/
def splitCommaAux : List Char → List (List Char)
  | [] => [[]]
  | c :: rest =>
      match splitCommaAux rest with
      | [] => [[]]
      | cur :: more => if c = ',' then [] :: cur :: more else (c :: cur) :: more

/-- jsSplitComma models answer.split(","). -/
def jsSplitComma (s : String) : List String :=
  (splitCommaAux s.data).map String.mk

/-- cliSelect embeds the selection logic of bin/cli.js: each per-file flag is
tested independently, and an empty selection defaults to the full catalog. -/
def cliSelect (args : List String) : List Key :=
  let s :=
    (if args.contains "--claude" then [Key.claude] else []) ++
    (if args.contains "--backend" then [Key.backend] else []) ++
    (if args.contains "--frontend" then [Key.frontend] else [])
  if s.isEmpty then catalogKeys else s

/-- interactiveSelect embeds the flag resolution of the interactive script:
an else-if chain, so --all wins, then the first present per-file flag. -/
def interactiveSelect (args : List String) : List Key :=
  if args.contains "--all" then catalogKeys
  else if args.contains "--claude" then [Key.claude]
  else if args.contains "--backend" then [Key.backend]
  else if args.contains "--frontend" then [Key.frontend]
  else []

/-- selectFiles embeds the interactive selection prompt, applied to the raw
input line; the ask helper trims and lowercases the answer first.  A whole
answer of 4 or all selects everything; otherwise the answer splits at commas,
tokens are trimmed, tokens 1, 2, 3 map to catalog keys, every other token is
dropped, and duplicates are removed keeping first occurrences. -/
def selectFiles (raw : String) : List Key :=
  let answer := jsToLower (jsTrim raw)
  if answer == "4" || answer == "all" then catalogKeys
  else
    let choices := (jsSplitComma answer).map jsTrim
    let selected := choices.foldl
      (fun acc c =>
        if c == "1" then acc ++ [Key.claude]
        else if c == "2" then acc ++ [Key.backend]
        else if c == "3" then acc ++ [Key.frontend]
        else acc) []
    selected.foldl (fun acc k => if k ∈ acc then acc else acc ++ [k]) []

/-- confirmOverwrite embeds the overwrite confirmation: with no conflicting
files it returns true without consulting input; otherwise the trimmed,
lowercased input line must equal y or yes. -/
def confirmOverwrite (existingFiles : List String) (raw : String) : Bool :=
  if existingFiles.isEmpty then true
  else
    let answer := jsToLower (jsTrim raw)
    answer == "y" || answer == "yes"

/-- cliStep embeds one iteration of the copy loop of bin/cli.js: skip when the
destination exists and force is absent, otherwise read the source and write
it, catching failures; the action string is computed after the write, exactly
as in the source. -/
def cliStep (env : Env) (force : Bool) (st : CopySt) (k : Key) : CopySt :=
  let name := (FILES k).name
  if existsSync st.fs name && !force then
    { st with skipped := st.skipped + 1,
              outcomes := st.outcomes ++ [(k, Outcome.skipped)] }
  else
    match env.srcRead k with
    | Except.error e => { st with outcomes := st.outcomes ++ [(k, Outcome.failed e)] }
    | Except.ok content =>
        if env.writable name then
          let fs2 := writeFileSync st.fs name content
          let action := if existsSync fs2 name && force then "overwritten" else "created"
          { st with fs := fs2,
                    installed := st.installed + 1,
                    outcomes := st.outcomes ++ [(k, Outcome.ok action)] }
        else
          { st with outcomes := st.outcomes ++ [(k, Outcome.failed "EACCES: permission denied")] }

/-- cliCopy folds cliStep over the selected keys starting from a fresh state. -/
def cliCopy (env : Env) (force : Bool) (fs : Fs) (keys : List Key) : CopySt :=
  keys.foldl (cliStep env force) { fs := fs, installed := 0, skipped := 0, outcomes := [] }

/-- CliResult is the observable result of running bin/cli.js: a help exit
that touches nothing, or a completed run with its final copy state. -/
inductive CliResult where
  | helpExit (fs : Fs)
  | ran (st : CopySt)
deriving DecidableEq, Repr

/-- cliMain embeds main of bin/cli.js: help short-circuits, then the copy
loop runs over the flag-resolved selection. -/
def cliMain (env : Env) (args : List String) (fs : Fs) : CliResult :=
  if args.contains "--help" || args.contains "-h" then CliResult.helpExit fs
  else CliResult.ran (cliCopy env (args.contains "--force") fs (cliSelect args))

/-- interStep embeds one iteration of the copy loop of the interactive
script: no skip branch, read then write, failures caught per entry; the
script reports no created/overwritten distinction, so the action is empty. -/
def interStep (env : Env) (st : CopySt) (k : Key) : CopySt :=
  let name := (FILES k).name
  match env.srcRead k with
  | Except.error e => { st with outcomes := st.outcomes ++ [(k, Outcome.failed e)] }
  | Except.ok content =>
      if env.writable name then
        { st with fs := writeFileSync st.fs name content,
                  installed := st.installed + 1,
                  outcomes := st.outcomes ++ [(k, Outcome.ok "")] }
      else
        { st with outcomes := st.outcomes ++ [(k, Outcome.failed "EACCES: permission denied")] }

/-- interCopy folds interStep over the selected keys from a fresh state. -/
def interCopy (env : Env) (fs : Fs) (keys : List Key) : CopySt :=
  keys.foldl (interStep env) { fs := fs, installed := 0, skipped := 0, outcomes := [] }

/-- startsWithDashDash models a.startsWith with the two-character prefix of
double-dash flags. -/
def startsWithDashDash (s : String) : Bool :=
  match s.data with
  | '-' :: '-' :: _ => true
  | _ => false

/-- hasFlagArg tests whether some argument is a double-dash flag other than
--force, the guard of the no-valid-selection early exit. -/
def hasFlagArg (args : List String) : Bool :=
  args.any (fun a => startsWithDashDash a && a != "--force")

/-- InterResult is the observable result of running the interactive script;
every early exit carries the untouched destination directory. -/
inductive InterResult where
  | helpExit (fs : Fs)
  | noValidSelection (fs : Fs)
  | noneSelected (fs : Fs)
  | cancelled (fs : Fs)
  | ran (st : CopySt)
deriving DecidableEq, Repr

/-- interMain embeds main of the interactive script.  The two input lines the
process could consume (selection prompt and overwrite confirmation) are passed
as promptInput and confirmInput.  Order follows the source: help exit, flag
resolution, no-valid-selection exit, interactive selection when flags chose
nothing, empty-selection exit, conflict detection, confirmation when conflicts
exist and force is absent, then the copy loop. -/
def interMain (env : Env) (args : List String) (promptInput confirmInput : String)
    (fs : Fs) : InterResult :=
  if args.contains "--help" || args.contains "-h" then InterResult.helpExit fs
  else
    let force := args.contains "--force"
    let sel0 := interactiveSelect args
    if hasFlagArg args && sel0.isEmpty then InterResult.noValidSelection fs
    else
      let sel := if sel0.isEmpty then selectFiles promptInput else sel0
      if sel.isEmpty then InterResult.noneSelected fs
      else
        let existingFiles := (sel.map (fun k => (FILES k).name)).filter (existsSync fs)
        if !existingFiles.isEmpty && !force then
          if confirmOverwrite existingFiles confirmInput then
            InterResult.ran (interCopy env fs sel)
          else InterResult.cancelled fs
        else InterResult.ran (interCopy env fs sel)

/-- srcContent gives each catalog entry a distinct bundled content, standing
for the bytes of the packaged markdown file. -/
def srcContent (k : Key) : String :=
  "bundled content of " ++ (FILES k).name

/-- envOK is a healthy environment: every bundled source file reads
successfully and every destination name is writable. -/
def envOK : Env :=
  { srcRead := fun k => Except.ok (srcContent k), writable := fun _ => true }

/-- envMid is an environment whose backend source file is unreadable while
the other two entries behave normally, to exercise failure isolation. -/
def envMid : Env :=
  { srcRead := fun k =>
      if k = Key.backend then Except.error "ENOENT: no such file or directory"
      else Except.ok (srcContent k),
    writable := fun _ => true }

/-- argsFor builds the argument list holding exactly the per-file flags of a
subset of the catalog, in catalog order. -/
def argsFor (c b f : Bool) : List String :=
  (if c then ["--claude"] else []) ++
  (if b then ["--backend"] else []) ++
  (if f then ["--frontend"] else [])

/-- flagOf reads off the characteristic function of the flag subset. -/
def flagOf (c b f : Bool) : Key → Bool
  | .claude => c
  | .backend => b
  | .frontend => f

theorem lookupFile_writeFileSync (fs : Fs) (name content : String) :
    lookupFile (writeFileSync fs name content) name = some content := by
  induction fs with
  | nil => simp [writeFileSync, lookupFile]
  | cons p rest ih =>
      obtain ⟨n, c⟩ := p
      by_cases h : n = name
      · simp [writeFileSync, lookupFile, h]
      · simp [writeFileSync, lookupFile, h, ih]

theorem cliStep_outcomes (env : Env) (force : Bool) (st : CopySt) (k : Key) :
    ∃ o, (cliStep env force st k).outcomes = st.outcomes ++ [(k, o)] := by
  unfold cliStep
  dsimp only
  split
  · exact ⟨Outcome.skipped, rfl⟩
  · cases h : env.srcRead k with
    | error e => exact ⟨Outcome.failed e, rfl⟩
    | ok content =>
        dsimp only
        split
        · exact ⟨Outcome.ok _, rfl⟩
        · exact ⟨Outcome.failed _, rfl⟩

theorem interStep_outcomes (env : Env) (st : CopySt) (k : Key) :
    ∃ o, (interStep env st k).outcomes = st.outcomes ++ [(k, o)] := by
  unfold interStep
  dsimp only
  cases h : env.srcRead k with
  | error e => exact ⟨Outcome.failed e, rfl⟩
  | ok content =>
      dsimp only
      split
      · exact ⟨Outcome.ok _, rfl⟩
      · exact ⟨Outcome.failed _, rfl⟩

theorem cliFold_outcomes (env : Env) (force : Bool) :
    ∀ (keys : List Key) (st : CopySt),
      ((keys.foldl (cliStep env force) st).outcomes).map Prod.fst =
        st.outcomes.map Prod.fst ++ keys := by
  intro keys
  induction keys with
  | nil => intro st; simp
  | cons k ks ih =>
      intro st
      have h := ih (cliStep env force st k)
      obtain ⟨o, ho⟩ := cliStep_outcomes env force st k
      simp only [List.foldl_cons, h, ho, List.map_append]
      simp

theorem interFold_outcomes (env : Env) :
    ∀ (keys : List Key) (st : CopySt),
      ((keys.foldl (interStep env) st).outcomes).map Prod.fst =
        st.outcomes.map Prod.fst ++ keys := by
  intro keys
  induction keys with
  | nil => intro st; simp
  | cons k ks ih =>
      intro st
      have h := ih (interStep env st k)
      obtain ⟨o, ho⟩ := interStep_outcomes env st k
      simp only [List.foldl_cons, h, ho, List.map_append]
      simp

/-- C1: the claim is false as stated.  In the interactive entry point the
else-if chain keeps only the first present per-file flag, so the flags for
the subset containing claude and backend yield only claude; and in bin/cli.js
the empty flag subset yields the full catalog rather than the empty set. -/
theorem C1_counterexample :
    interactiveSelect ["--claude", "--backend"] = [Key.claude]
    ∧ interactiveSelect ["--claude", "--backend"] ≠ [Key.claude, Key.backend]
    ∧ cliSelect [] = catalogKeys
    ∧ cliSelect [] ≠ ([] : List Key) := by decide

/-- C1 (amended): in bin/cli.js a nonempty flag subset resolves to exactly
that subset, without duplicates, and the empty subset defaults to the full
catalog; in the interactive entry point flag resolution keeps at most one
per-file key, the first present in the order claude, backend, frontend. -/
theorem C1_amended_selection : ∀ c b f : Bool,
    ((c || b || f) = true →
      ∀ k : Key, (k ∈ cliSelect (argsFor c b f)) ↔ flagOf c b f k = true)
    ∧ (cliSelect (argsFor c b f)).Nodup
    ∧ ((c || b || f) = false → cliSelect (argsFor c b f) = catalogKeys)
    ∧ interactiveSelect (argsFor c b f) =
        (if c then [Key.claude]
         else if b then [Key.backend]
         else if f then [Key.frontend]
         else []) := by decide

/-- C1 (witness): the amended statement applied to the subset containing
claude and backend in bin/cli.js. -/
theorem C1_amended_witness :
    (Key.claude ∈ cliSelect (argsFor true true false))
    ∧ (Key.backend ∈ cliSelect (argsFor true true false)) := by
  have h := C1_amended_selection true true false
  exact ⟨(h.1 rfl Key.claude).mpr rfl, (h.1 rfl Key.backend).mpr rfl⟩

/-- C2: the claim is false as stated.  bin/cli.js never tests for an --all
flag, so --all together with --claude selects only claude there. -/
theorem C2_counterexample :
    cliSelect ["--all", "--claude"] = [Key.claude]
    ∧ Key.backend ∉ cliSelect ["--all", "--claude"] := by decide

/-- C2 (amended): in the interactive entry point --all always yields the full
catalog regardless of other flags; bin/cli.js does not recognize --all, so
--all alone yields the full catalog only through the empty-selection default,
while --all next to a per-file flag yields just the per-file keys. -/
theorem C2_amended_all_flag : ∀ args : List String,
    args.contains "--all" = true →
      interactiveSelect args = catalogKeys
      ∧ cliSelect ["--all"] = catalogKeys
      ∧ cliSelect ["--all", "--claude"] = [Key.claude] := by
  intro args h
  refine ⟨?_, by decide, by decide⟩
  have hm : "--all" ∈ args := by simpa using h
  simp [interactiveSelect, hm]

/-- C2 (witness): the amended statement applied to --all plus --frontend. -/
theorem C2_amended_witness :
    interactiveSelect ["--all", "--frontend"] = catalogKeys :=
  (C2_amended_all_flag ["--all", "--frontend"] (by decide)).1

/-- C3: when the destination already holds CLAUDE.md and bin/cli.js runs with
only --claude and without --force, the entry is reported skipped and the
destination directory, hence the stored content, is unchanged. -/
theorem C3_skip_preserves (env : Env) (fs : Fs) (content : String)
    (h : lookupFile fs "CLAUDE.md" = some content) :
    cliMain env ["--claude"] fs =
      CliResult.ran { fs := fs, installed := 0, skipped := 1,
                      outcomes := [(Key.claude, Outcome.skipped)] } := by
  have hx : existsSync fs "CLAUDE.md" = true := by simp [existsSync, h]
  simp [cliMain, cliCopy, cliSelect, cliStep, FILES, hx]

/-- C3 (witness): the skip theorem applied to a concrete directory holding
CLAUDE.md. -/
theorem C3_skip_witness :
    cliMain envOK ["--claude"] [("CLAUDE.md", "old bytes")] =
      CliResult.ran { fs := [("CLAUDE.md", "old bytes")], installed := 0, skipped := 1,
                      outcomes := [(Key.claude, Outcome.skipped)] } :=
  C3_skip_preserves envOK [("CLAUDE.md", "old bytes")] "old bytes" (by decide)

/-- C4: in both copy loops every selected entry produces exactly one outcome
in selection order, whatever failures occur, so no failure aborts the batch;
and a read failure leaves the destination directory, the installed counter,
and the other entries untouched, adding only a Failed outcome. -/
theorem C4_failure_isolation : ∀ (env : Env) (force : Bool) (fs : Fs) (keys : List Key),
    ((cliCopy env force fs keys).outcomes).map Prod.fst = keys
    ∧ ((interCopy env fs keys).outcomes).map Prod.fst = keys
    ∧ (∀ (st : CopySt) (k : Key) (e : String),
        env.srcRead k = Except.error e →
          (interStep env st k).outcomes = st.outcomes ++ [(k, Outcome.failed e)]
          ∧ (interStep env st k).fs = st.fs
          ∧ (interStep env st k).installed = st.installed) := by
  intro env force fs keys
  refine ⟨?_, ?_, ?_⟩
  · have h := cliFold_outcomes env force keys
      { fs := fs, installed := 0, skipped := 0, outcomes := [] }
    simpa [cliCopy] using h
  · have h := interFold_outcomes env keys
      { fs := fs, installed := 0, skipped := 0, outcomes := [] }
    simpa [interCopy] using h
  · intro st k e he
    unfold interStep
    rw [he]
    exact ⟨rfl, rfl, rfl⟩

/-- C4 (witness): the isolation statement applied to an environment whose
backend source is unreadable; all three entries are still reported. -/
theorem C4_failure_witness :
    ((cliCopy envMid false [] catalogKeys).outcomes).map Prod.fst = catalogKeys :=
  (C4_failure_isolation envMid false [] catalogKeys).1

/-- C5: the interactive prompt maps 1,3 to the keys at positions 1 and 3 in
order, 4 and all to the full catalog, drops the out-of-range token of 1,9
while keeping the valid one, maps empty input to the empty selection, and an
empty selection makes the process exit cleanly leaving the directory as is. -/
theorem C5_prompt_selection :
    selectFiles "1,3" = [Key.claude, Key.frontend]
    ∧ selectFiles "4" = catalogKeys
    ∧ selectFiles "all" = catalogKeys
    ∧ selectFiles "1,9" = [Key.claude]
    ∧ selectFiles "" = []
    ∧ (∀ (env : Env) (ci : String) (fs : Fs),
        interMain env [] "" ci fs = InterResult.noneSelected fs) := by
  refine ⟨by decide, by decide, by decide, by decide, by decide, ?_⟩
  intro env ci fs
  rfl

/-- C6: a written entry stores exactly the content read from its bundled
source: in both copy steps a successful read and write leaves the source
content under the display name, and running bin/cli.js with --claude and
--force over an existing CLAUDE.md replaces it with the bundled content. -/
theorem C6_verbatim_copy (env : Env) (fs : Fs) (old content : String)
    (hr : env.srcRead Key.claude = Except.ok content)
    (hw : env.writable "CLAUDE.md" = true)
    (_hex : lookupFile fs "CLAUDE.md" = some old) :
    cliMain env ["--claude", "--force"] fs =
      CliResult.ran { fs := writeFileSync fs "CLAUDE.md" content,
                      installed := 1, skipped := 0,
                      outcomes := [(Key.claude, Outcome.ok "overwritten")] }
    ∧ lookupFile (writeFileSync fs "CLAUDE.md" content) "CLAUDE.md" = some content
    ∧ (∀ (env2 : Env) (force : Bool) (st : CopySt) (k : Key) (c : String),
        env2.srcRead k = Except.ok c →
        env2.writable (FILES k).name = true →
        (existsSync st.fs (FILES k).name && !force) = false →
          lookupFile (cliStep env2 force st k).fs (FILES k).name = some c
          ∧ lookupFile (interStep env2 st k).fs (FILES k).name = some c) := by
  refine ⟨?_, lookupFile_writeFileSync fs "CLAUDE.md" content, ?_⟩
  · simp [cliMain, cliCopy, cliSelect, cliStep, FILES, hr, hw, existsSync,
      lookupFile_writeFileSync]
  · intro env2 force st k c hr2 hw2 hskip
    constructor
    · simp [cliStep, hskip, hr2, hw2, lookupFile_writeFileSync]
    · simp [interStep, hr2, hw2, lookupFile_writeFileSync]

/-- C6 (witness): the verbatim-copy theorem applied to a concrete directory
holding an old CLAUDE.md under the healthy environment. -/
theorem C6_verbatim_witness :
    cliMain envOK ["--claude", "--force"] [("CLAUDE.md", "old bytes")] =
      CliResult.ran
        { fs := writeFileSync [("CLAUDE.md", "old bytes")] "CLAUDE.md" (srcContent Key.claude),
          installed := 1, skipped := 0,
          outcomes := [(Key.claude, Outcome.ok "overwritten")] }
    ∧ lookupFile (writeFileSync [("CLAUDE.md", "old bytes")] "CLAUDE.md" (srcContent Key.claude))
        "CLAUDE.md" = some (srcContent Key.claude) := by
  have h := C6_verbatim_copy envOK [("CLAUDE.md", "old bytes")] "old bytes"
    (srcContent Key.claude) rfl rfl (by decide)
  exact ⟨h.1, h.2.1⟩

/-- C7: the claim is false as stated for bin/cli.js; an unrecognized flag with
no per-file selection does not exit early there: the empty selection defaults
to the full catalog and all three files are installed. -/
theorem C7_counterexample :
    cliMain envOK ["--bogus"] [] =
      CliResult.ran
        { fs := [("CLAUDE.md", srcContent Key.claude),
                 ("SOLANA_EXPERT_AGENT.md", srcContent Key.backend),
                 ("SOLANA_FRONTEND_AGENT.md", srcContent Key.frontend)],
          installed := 3, skipped := 0,
          outcomes := [(Key.claude, Outcome.ok "created"),
                       (Key.backend, Outcome.ok "created"),
                       (Key.frontend, Outcome.ok "created")] } := by decide

/-- C7 (amended): the no-valid-selection early exit lives in the interactive
entry point: a double-dash flag other than --force with no matching per-file
selection (and no help flag) exits early leaving the directory untouched,
while bin/cli.js resolves such an argument list to the full catalog. -/
theorem C7_amended_no_valid_selection (env : Env) (pi ci : String) (fs : Fs)
    (args : List String)
    (h1 : args.contains "--help" = false) (h2 : args.contains "-h" = false)
    (h3 : hasFlagArg args = true) (h4 : interactiveSelect args = []) :
    interMain env args pi ci fs = InterResult.noValidSelection fs
    ∧ cliSelect ["--bogus"] = catalogKeys := by
  refine ⟨?_, by decide⟩
  unfold interMain
  rw [h1, h2]
  simp [h3, h4]

/-- C7 (witness): the amended statement applied to the single argument
--bogus against a concrete environment and directory. -/
theorem C7_amended_witness :
    interMain envOK ["--bogus"] "" "" [("CLAUDE.md", "x")] =
      InterResult.noValidSelection [("CLAUDE.md", "x")] :=
  (C7_amended_no_valid_selection envOK "" "" [("CLAUDE.md", "x")] ["--bogus"]
    (by decide) (by decide) (by decide) (by decide)).1

/-- C8: with a nonempty conflict list the overwrite confirmation is true
exactly when the trimmed lowercased input is y or yes; and when the user
declines, the interactive run is cancelled with the directory unchanged. -/
theorem C8_confirm_decline (existing : List String) (raw : String)
    (hne : existing ≠ []) :
    (confirmOverwrite existing raw = true ↔
      (jsToLower (jsTrim raw) = "y" ∨ jsToLower (jsTrim raw) = "yes"))
    ∧ (∀ (env : Env) (ci : String) (fs : Fs) (old : String),
        lookupFile fs "CLAUDE.md" = some old →
        jsToLower (jsTrim ci) ≠ "y" →
        jsToLower (jsTrim ci) ≠ "yes" →
        interMain env ["--claude"] "" ci fs = InterResult.cancelled fs) := by
  constructor
  · cases existing with
    | nil => exact absurd rfl hne
    | cons a rest => simp [confirmOverwrite]
  · intro env ci fs old hlook hy hyes
    have hx : existsSync fs "CLAUDE.md" = true := by simp [existsSync, hlook]
    have hc : confirmOverwrite ["CLAUDE.md"] ci = false := by
      simp [confirmOverwrite, hy, hyes]
    simp [interMain, interactiveSelect, hasFlagArg, startsWithDashDash, hx, hc,
      FILES]

/-- C8 (witness): the confirmation theorem applied to the input line
containing NO, against a concrete directory holding CLAUDE.md. -/
theorem C8_confirm_witness :
    confirmOverwrite ["CLAUDE.md"] " NO " = false
    ∧ interMain envOK ["--claude"] "" " NO " [("CLAUDE.md", "x")] =
        InterResult.cancelled [("CLAUDE.md", "x")] := by
  have h := C8_confirm_decline ["CLAUDE.md"] " NO " (by decide)
  constructor
  · have hne : ¬ (jsToLower (jsTrim " NO ") = "y" ∨ jsToLower (jsTrim " NO ") = "yes") := by
      decide
    exact Bool.eq_false_iff.mpr (fun htrue => hne (h.1.mp htrue))
  · exact h.2 envOK " NO " [("CLAUDE.md", "x")] "x" (by decide) (by decide) (by decide)

/-- C9: evaluation at the failing input.  Running bin/cli.js with --claude
and --force against an empty destination creates CLAUDE.md anew, yet the
action computed by the source (existence checked after the write) says
overwritten; the claim and the spec require Created when no file existed
before the call. -/
theorem C9_action_bug :
    existsSync ([] : Fs) "CLAUDE.md" = false
    ∧ cliMain envOK ["--claude", "--force"] [] =
        CliResult.ran { fs := [("CLAUDE.md", srcContent Key.claude)],
                        installed := 1, skipped := 0,
                        outcomes := [(Key.claude, Outcome.ok "overwritten")] } := by
  exact ⟨rfl, by decide⟩

/-- C10: the claim is false as stated; the full catalog is also returned for
the input 1,2,3, whose trimmed lowercased form is neither 4 nor all. -/
theorem C10_counterexample :
    selectFiles "1,2,3" = catalogKeys
    ∧ jsToLower (jsTrim "1,2,3") ≠ "4"
    ∧ jsToLower (jsTrim "1,2,3") ≠ "all" := by decide

/-- C10 (amended): the dedicated all branch fires only when the whole trimmed
lowercased input equals 4 or all; a 4 or all token inside a comma-separated
list is dropped like an out-of-range token, so 1,4 selects only position 1
and 2,all only position 2; but the full catalog can still be obtained by
listing every index, as with 1,2,3. -/
theorem C10_amended_tokens :
    selectFiles "1,4" = [Key.claude]
    ∧ selectFiles "2,all" = [Key.backend]
    ∧ selectFiles "4" = catalogKeys
    ∧ selectFiles "all" = catalogKeys
    ∧ selectFiles "1,2,3" = catalogKeys := by decide
